import Mathlib

/-!
Verification of the Snowflake data-comparison framework (`src/compare.py`).

The repository's own code (`SnowflakeDataComparer`) drives per-table
comparisons, isolates per-table failures, accumulates a run summary and
derives a process exit code; the row-level diff algorithm itself is
delegated to the external `data_diff` library, which the specification
reconstructs as an explicit merge-join differ.  Accordingly:

* the differ (`Row`, `RowDiff`, `diffCols`, `mergeDiff`, duplicate-key
  detection) is modelled from the spec, and
* the per-table / per-run orchestration (`compare_table`,
  `compare_all_tables`, `generate_summary_report`'s success-rate cell,
  `export_to_snowflake`, `get_exit_code`) is embedded from the source.

Effects the Python code performs (database connections, the library diff
call, the Snowflake export) are modelled by passing their outcome in as an
`Except String` value: `Except.error e` stands for the Python exception `e`
caught by the corresponding `try/except` block.
-/

/-- Modelled from the spec (§3 Data Model): a row exposed by an Ordered Row
Source.  The spec's key tuple is abstracted to a single value of a linearly
ordered type `K`; `fields` holds the values of the compared columns, in the
column order fixed by the `TableSpec` (the spec assumes both sides expose
the same column set, so the column-name list is passed separately to the
comparator). -/
structure Row (K : Type) where
  key : K
  fields : List String
deriving DecidableEq, Repr

/-- Modelled from the spec (§3 Data Model): a classified row diff.
`Added`/`Removed` carry the key and the full field snapshot from the side
where the row exists; `Modified` carries the key and the ordered list of
(column, old value, new value) for every differing column. -/
inductive RowDiff (K : Type) where
  | Added (key : K) (fields : List String)
  | Removed (key : K) (fields : List String)
  | Modified (key : K) (changes : List (String × String × String))
deriving DecidableEq, Repr

/-- Modelled from the spec (§4.2 Row Comparator): given the compared column
names and the two field lists (aligned with those names), return the ordered
list of (column, old, new) for every differing column; columns equal on both
sides are omitted. -/
def diffCols : List String → List String → List String → List (String × String × String)
  | c :: cs, x :: xs, y :: ys =>
      if x = y then diffCols cs xs ys else (c, x, y) :: diffCols cs xs ys
  | _, _, _ => []

/-- Does the head of the list carry exactly the key `k`?  Used by the differ
to detect two consecutive rows with an equal key when advancing a source. -/
def hdKeyEq {K : Type} [DecidableEq K] (k : K) : List (Row K) → Bool
  | [] => false
  | r :: _ => r.key = k

/-- A source yields two consecutive rows with an equal key somewhere. -/
def hasConsecDup {K : Type} [DecidableEq K] : List (Row K) → Bool
  | [] => false
  | r :: rs => hdKeyEq r.key rs || hasConsecDup rs

/-- Modelled from the spec (§4.3 Merge-Join Differ), which reconstructs the
diff algorithm the source delegates to the `data_diff` library: a sorted
merge-join over the two sources.  At each step: if the left key is smaller
(or the right side is exhausted) emit `Removed` and advance left; if the
right key is smaller (or the left side is exhausted) emit `Added` and
advance right; if the keys are equal emit `Modified` when any compared
column differs and advance both.  Advancing past a row whose successor has
an equal key is the duplicate-key contract violation of §4.1/§7 and aborts
the table with an error. -/
def mergeDiff {K : Type} [LinearOrder K] (cols : List String) :
    List (Row K) → List (Row K) → Except String (List (RowDiff K))
  | [], [] => Except.ok []
  | [], r :: rs =>
      if hdKeyEq r.key rs then Except.error "duplicate key in new source"
      else (mergeDiff cols [] rs).map (fun ds => RowDiff.Added r.key r.fields :: ds)
  | l :: ls, [] =>
      if hdKeyEq l.key ls then Except.error "duplicate key in legacy source"
      else (mergeDiff cols ls []).map (fun ds => RowDiff.Removed l.key l.fields :: ds)
  | l :: ls, r :: rs =>
      if l.key < r.key then
        if hdKeyEq l.key ls then Except.error "duplicate key in legacy source"
        else (mergeDiff cols ls (r :: rs)).map
          (fun ds => RowDiff.Removed l.key l.fields :: ds)
      else if r.key < l.key then
        if hdKeyEq r.key rs then Except.error "duplicate key in new source"
        else (mergeDiff cols (l :: ls) rs).map
          (fun ds => RowDiff.Added r.key r.fields :: ds)
      else
        if hdKeyEq l.key ls then Except.error "duplicate key in legacy source"
        else if hdKeyEq r.key rs then Except.error "duplicate key in new source"
        else
          (mergeDiff cols ls rs).map (fun ds =>
            let cs := diffCols cols l.fields r.fields
            if cs.isEmpty then ds else RowDiff.Modified l.key cs :: ds)
termination_by l r => l.length + r.length

/-- Run-summary accumulator, embedding the `self.summary` dict initialised
in `SnowflakeDataComparer.__init__` (src/compare.py lines 35-40). -/
structure Summary where
  total_tables : Nat
  passed_tables : Nat
  failed_tables : Nat
  errors : List String
deriving DecidableEq, Repr

/-- The zero summary created by `__init__`. -/
def initSummary : Summary :=
  { total_tables := 0, passed_tables := 0, failed_tables := 0, errors := [] }

/-- The per-table result dict built by `compare_table` (src/compare.py
lines 117-128 and 144-151).  The error-path dict carries no
`total_diffs`/`diffs` keys; downstream reads use `.get(k, 0)`, so the
embedding uses `0`/`[]` there and `error := none` on the success path. -/
structure TableResult (K : Type) where
  table : String
  status : String
  total_diffs : Nat
  diffs : List (RowDiff K)
  error : Option String
deriving DecidableEq, Repr

/-- The `max_diffs` lookup
`self.config.get('comparison', {}).get('max_diffs', 1000)`
(src/compare.py line 125): the configured cap, defaulting to 1000. -/
def effectiveMaxDiffs (configured : Option Nat) : Nat :=
  configured.getD 1000

/-- The error string built at src/compare.py line 140. -/
def errorMessage (name msg : String) : String :=
  "Error comparing " ++ name ++ ": " ++ msg

/-- Result component of `compare_table` (src/compare.py lines 84-151).
`attempt` is the outcome of the `try` block up to and including the
`diff_tables` call: `Except.error e` is an exception caught by the
`except Exception` handler at line 139.  On success the status is `"PASS"`
when there are no diffs and `"FAIL"` otherwise (line 119), `total_diffs` is
the full diff count (line 120) and `diffs` keeps only the first `maxDiffs`
entries (line 125). -/
def compare_table {K : Type} (maxDiffs : Nat) (name : String)
    (attempt : Except String (List (RowDiff K))) : TableResult K :=
  match attempt with
  | Except.ok ds =>
      { table := name
        status := if ds.length = 0 then "PASS" else "FAIL"
        total_diffs := ds.length
        diffs := ds.take maxDiffs
        error := none }
  | Except.error e =>
      { table := name, status := "ERROR", total_diffs := 0, diffs := [],
        error := some e }

/-- Summary-mutation component of `compare_table`: lines 130-135 increment
`passed_tables`/`failed_tables`; the exception handler (lines 139-142)
appends the error message to `summary["errors"]`. -/
def record_table {K : Type} (s : Summary) (name : String)
    (attempt : Except String (List (RowDiff K))) : Summary :=
  match attempt with
  | Except.ok ds =>
      if ds.length = 0 then { s with passed_tables := s.passed_tables + 1 }
      else { s with failed_tables := s.failed_tables + 1 }
  | Except.error e => { s with errors := s.errors ++ [errorMessage name e] }

/-- One table of the configured run: its name together with the outcome of
the environment-dependent part of `compare_table` for it. -/
structure TableRun (K : Type) where
  name : String
  attempt : Except String (List (RowDiff K))

/-- The loop body of `compare_all_tables` (src/compare.py lines 157-159):
for each configured table call `compare_table`, append its result to
`self.results`, and thread the mutated summary. -/
def compare_tables_loop {K : Type} (maxDiffs : Nat) :
    List (TableRun K) → Summary → List (TableResult K) × Summary
  | [], s => ([], s)
  | t :: ts, s =>
      let r := compare_table maxDiffs t.name t.attempt
      let s' := record_table s t.name t.attempt
      let rest := compare_tables_loop maxDiffs ts s'
      (r :: rest.1, rest.2)

/-- `compare_all_tables` (src/compare.py lines 153-161): set
`summary["total_tables"]` to the number of configured tables, then run the
per-table loop. -/
def compare_all_tables {K : Type} (maxDiffs : Nat) (tables : List (TableRun K))
    (s : Summary) : List (TableResult K) × Summary :=
  compare_tables_loop maxDiffs tables { s with total_tables := tables.length }

/-- Exact-rational stand-in for the Python float format
`f"{passed/total*100:.1f}%"`; only called when `total > 0`. -/
def formatPct (passed total : Nat) : String :=
  let tenths := passed * 1000 / total
  toString (tenths / 10) ++ "." ++ toString (tenths % 10) ++ "%"

/-- The Success Rate cell of `generate_summary_report` (src/compare.py
line 172): guarded division, rendering `"0%"` when `total_tables = 0`. -/
def success_rate_cell (s : Summary) : String :=
  if s.total_tables > 0 then formatPct s.passed_tables s.total_tables
  else "0%"

/-- Mutable comparer state visible to `export_to_snowflake`:
`self.results` and `self.summary`. -/
structure ComparerState (K : Type) where
  results : List (TableResult K)
  summary : Summary

/-- `export_to_snowflake` (src/compare.py lines 256-346) as it acts on the
comparer state: `outcome` is the result of the `try` block (connection,
table creation, `write_pandas`); on an exception the handler at lines
343-346 appends the export error to `summary["errors"]` and changes nothing
else. -/
def export_to_snowflake {K : Type} (outcome : Except String Unit)
    (st : ComparerState K) : ComparerState K :=
  match outcome with
  | Except.ok _ => st
  | Except.error e =>
      { st with summary :=
          { st.summary with errors :=
              st.summary.errors ++ ["Error exporting to Snowflake: " ++ e] } }

/-- `get_exit_code` (src/compare.py lines 348-352): 1 when the error list is
non-empty (Python truthiness of the list) or any table failed, else 0. -/
def get_exit_code (s : Summary) : Nat :=
  if s.errors ≠ [] ∨ s.failed_tables > 0 then 1 else 0

/-- Swap the old/new components of one column change. -/
def swapChange (c : String × String × String) : String × String × String :=
  (c.1, c.2.2, c.2.1)

/-- The effect on one diff of swapping the legacy and new sides:
`Added` and `Removed` trade places and `Modified` swaps old/new values. -/
def swapDiff {K : Type} : RowDiff K → RowDiff K
  | RowDiff.Added k f => RowDiff.Removed k f
  | RowDiff.Removed k f => RowDiff.Added k f
  | RowDiff.Modified k cs => RowDiff.Modified k (cs.map swapChange)

/-- The error messages `compare_all_tables` accumulates into
`summary["errors"]`, one per table whose attempt raised, in table order. -/
def collectErrors {K : Type} : List (TableRun K) → List String
  | [] => []
  | t :: ts =>
      (match t.attempt with
       | Except.error e => [errorMessage t.name e]
       | Except.ok _ => []) ++ collectErrors ts

/-- How many tables in the run completed with a non-zero diff count (the
ones `compare_table` counts into `summary["failed_tables"]`). -/
def countFail {K : Type} : List (TableRun K) → Nat
  | [] => 0
  | t :: ts =>
      (match t.attempt with
       | Except.ok ds => if ds.length = 0 then 0 else 1
       | Except.error _ => 0) + countFail ts

/-- The legacy side of the spec's merge-correctness example (§8). -/
def legacyRows : List (Row Nat) := [⟨1, ["a"]⟩, ⟨2, ["b"]⟩, ⟨4, ["d"]⟩]

/-- The new side of the spec's merge-correctness example (§8). -/
def newRows : List (Row Nat) := [⟨1, ["a"]⟩, ⟨2, ["c"]⟩, ⟨3, ["e"]⟩]

/-! ### Helper lemmas -/

theorem except_map_ok {α β : Type} (f : α → β) (a : α) :
    Except.map f (Except.ok a : Except String α) = Except.ok (f a) := rfl

theorem except_map_err {α β : Type} (f : α → β) (e : String) :
    Except.map f (Except.error e : Except String α) = Except.error e := rfl

theorem except_map_eq_ok {α β : Type} {f : α → β} {x : Except String α}
    {y : β} : Except.map f x = Except.ok y ↔ ∃ a, x = Except.ok a ∧ y = f a := by
  cases x <;> simp [Except.map, eq_comm]

theorem diffCols_swap (cols a b : List String) :
    diffCols cols b a = (diffCols cols a b).map swapChange := by
  induction cols generalizing a b with
  | nil => simp [diffCols]
  | cons c cs ih =>
      cases a with
      | nil => cases b <;> simp [diffCols]
      | cons x xs =>
          cases b with
          | nil => simp [diffCols]
          | cons y ys =>
              by_cases h : x = y
              · subst h
                simp only [diffCols, if_pos rfl]
                exact ih xs ys
              · have h' : ¬ y = x := fun h2 => h h2.symm
                simp only [diffCols, if_neg h, if_neg h', List.map_cons]
                rw [ih xs ys]
                rfl

theorem mergeDiff_swap {K : Type} [LinearOrder K] (cols : List String)
    (l r : List (Row K)) :
    ∀ ds, mergeDiff cols l r = Except.ok ds →
      mergeDiff cols r l = Except.ok (ds.map swapDiff) := by
  induction l, r using mergeDiff.induct cols with
  | x_1 => infer_instance
  | case1 =>
      intro ds h
      simp only [mergeDiff] at h
      cases h
      simp [mergeDiff]
  | case2 r rs hdup =>
      intro ds h
      simp only [mergeDiff, if_pos hdup] at h
      exact Except.noConfusion h
  | case3 r rs hdup ih =>
      intro ds h
      simp only [mergeDiff, if_neg hdup, except_map_eq_ok] at h
      obtain ⟨ds', hds', rfl⟩ := h
      simp only [mergeDiff, if_neg hdup]
      rw [ih ds' hds']
      simp [except_map_ok, swapDiff]
  | case4 l ls hdup =>
      intro ds h
      simp only [mergeDiff, if_pos hdup] at h
      exact Except.noConfusion h
  | case5 l ls hdup ih =>
      intro ds h
      simp only [mergeDiff, if_neg hdup, except_map_eq_ok] at h
      obtain ⟨ds', hds', rfl⟩ := h
      simp only [mergeDiff, if_neg hdup]
      rw [ih ds' hds']
      simp [except_map_ok, swapDiff]
  | case6 l ls r rs hlt hdup =>
      intro ds h
      simp only [mergeDiff, if_pos hlt, if_pos hdup] at h
      exact Except.noConfusion h
  | case7 l ls r rs hlt hdup ih =>
      intro ds h
      simp only [mergeDiff, if_pos hlt, if_neg hdup, except_map_eq_ok] at h
      obtain ⟨ds', hds', rfl⟩ := h
      simp only [mergeDiff, if_neg (lt_asymm hlt), if_pos hlt, if_neg hdup]
      rw [ih ds' hds']
      simp [except_map_ok, swapDiff]
  | case8 l ls r rs hnlt hlt hdup =>
      intro ds h
      simp only [mergeDiff, if_neg hnlt, if_pos hlt, if_pos hdup] at h
      exact Except.noConfusion h
  | case9 l ls r rs hnlt hlt hdup ih =>
      intro ds h
      simp only [mergeDiff, if_neg hnlt, if_pos hlt, if_neg hdup,
        except_map_eq_ok] at h
      obtain ⟨ds', hds', rfl⟩ := h
      simp only [mergeDiff, if_pos hlt, if_neg hdup]
      rw [ih ds' hds']
      simp [except_map_ok, swapDiff]
  | case10 l ls r rs hnlt hnlt' hdup =>
      intro ds h
      simp only [mergeDiff, if_neg hnlt, if_neg hnlt', if_pos hdup] at h
      exact Except.noConfusion h
  | case11 l ls r rs hnlt hnlt' hdupl hdup =>
      intro ds h
      simp only [mergeDiff, if_neg hnlt, if_neg hnlt', if_neg hdupl,
        if_pos hdup] at h
      exact Except.noConfusion h
  | case12 l ls r rs hnlt hnlt' hdupl hdupr ih =>
      intro ds h
      have hkey : l.key = r.key :=
        le_antisymm (le_of_not_lt hnlt') (le_of_not_lt hnlt)
      simp only [mergeDiff, if_neg hnlt, if_neg hnlt', if_neg hdupl,
        if_neg hdupr, except_map_eq_ok] at h
      obtain ⟨ds', hds', rfl⟩ := h
      simp only [mergeDiff, if_neg hnlt, if_neg hnlt', if_neg hdupr,
        if_neg hdupl]
      rw [ih ds' hds']
      rw [except_map_ok]
      rw [diffCols_swap]
      by_cases hcs : (diffCols cols l.fields r.fields).isEmpty
      · simp [hcs, List.isEmpty_iff.mp hcs]
      · have hne : diffCols cols l.fields r.fields ≠ [] := by
          simpa [List.isEmpty_iff] using hcs
        simp [hcs, hne, swapDiff, hkey]

theorem mergeDiff_dup_error {K : Type} [LinearOrder K] (cols : List String)
    (l r : List (Row K)) :
    hasConsecDup l = true ∨ hasConsecDup r = true →
      ∃ e, mergeDiff cols l r = Except.error e := by
  induction l, r using mergeDiff.induct cols with
  | x_1 => infer_instance
  | case1 =>
      intro h
      simp [hasConsecDup] at h
  | case2 r rs hdup =>
      intro _
      exact ⟨"duplicate key in new source", by simp [mergeDiff, if_pos hdup]⟩
  | case3 r rs hdup ih =>
      intro h
      obtain ⟨e, he⟩ := ih (by simpa [hasConsecDup, hdup] using h)
      exact ⟨e, by simp [mergeDiff, if_neg hdup, he, except_map_err]⟩
  | case4 l ls hdup =>
      intro _
      exact ⟨"duplicate key in legacy source", by simp [mergeDiff, if_pos hdup]⟩
  | case5 l ls hdup ih =>
      intro h
      obtain ⟨e, he⟩ := ih (by simpa [hasConsecDup, hdup] using h)
      exact ⟨e, by simp [mergeDiff, if_neg hdup, he, except_map_err]⟩
  | case6 l ls r rs hlt hdup =>
      intro _
      exact ⟨"duplicate key in legacy source", by
        simp [mergeDiff, if_pos hlt, if_pos hdup]⟩
  | case7 l ls r rs hlt hdup ih =>
      intro h
      obtain ⟨e, he⟩ := ih (by simpa [hasConsecDup, hdup] using h)
      exact ⟨e, by simp [mergeDiff, if_pos hlt, if_neg hdup, he, except_map_err]⟩
  | case8 l ls r rs hnlt hlt hdup =>
      intro _
      exact ⟨"duplicate key in new source", by
        simp [mergeDiff, if_neg hnlt, if_pos hlt, if_pos hdup]⟩
  | case9 l ls r rs hnlt hlt hdup ih =>
      intro h
      obtain ⟨e, he⟩ := ih (by simpa [hasConsecDup, hdup] using h)
      exact ⟨e, by
        simp [mergeDiff, if_neg hnlt, if_pos hlt, if_neg hdup, he, except_map_err]⟩
  | case10 l ls r rs hnlt hnlt' hdup =>
      intro _
      exact ⟨"duplicate key in legacy source", by
        simp [mergeDiff, if_neg hnlt, if_neg hnlt', if_pos hdup]⟩
  | case11 l ls r rs hnlt hnlt' hdupl hdup =>
      intro _
      exact ⟨"duplicate key in new source", by
        simp [mergeDiff, if_neg hnlt, if_neg hnlt', if_neg hdupl, if_pos hdup]⟩
  | case12 l ls r rs hnlt hnlt' hdupl hdupr ih =>
      intro h
      obtain ⟨e, he⟩ := ih (by simpa [hasConsecDup, hdupl, hdupr] using h)
      exact ⟨e, by
        simp [mergeDiff, if_neg hnlt, if_neg hnlt', if_neg hdupl, if_neg hdupr,
          he, except_map_err]⟩

theorem compare_tables_loop_fst {K : Type} (maxDiffs : Nat)
    (ts : List (TableRun K)) (s : Summary) :
    (compare_tables_loop maxDiffs ts s).1
      = ts.map (fun t => compare_table maxDiffs t.name t.attempt) := by
  induction ts generalizing s with
  | nil => simp [compare_tables_loop]
  | cons t ts ih => simp [compare_tables_loop, ih]

theorem compare_tables_loop_errors {K : Type} (maxDiffs : Nat)
    (ts : List (TableRun K)) (s : Summary) :
    (compare_tables_loop maxDiffs ts s).2.errors
      = s.errors ++ collectErrors ts := by
  induction ts generalizing s with
  | nil => simp [compare_tables_loop, collectErrors]
  | cons t ts ih =>
      simp only [compare_tables_loop]
      rw [ih]
      cases ha : t.attempt with
      | ok ds =>
          by_cases hd : ds.length = 0 <;>
            simp [record_table, ha, hd, collectErrors]
      | error e => simp [record_table, ha, collectErrors]

theorem compare_tables_loop_failed {K : Type} (maxDiffs : Nat)
    (ts : List (TableRun K)) (s : Summary) :
    (compare_tables_loop maxDiffs ts s).2.failed_tables
      = s.failed_tables + countFail ts := by
  induction ts generalizing s with
  | nil => simp [compare_tables_loop, countFail]
  | cons t ts ih =>
      simp only [compare_tables_loop]
      rw [ih]
      cases ha : t.attempt with
      | ok ds =>
          by_cases hd : ds.length = 0
          · simp [record_table, ha, hd, countFail]
          · simp [record_table, ha, hd, countFail]
            omega
      | error e => simp [record_table, ha, countFail]

theorem compare_table_status_pass_iff {K : Type} (maxDiffs : Nat)
    (name : String) (att : Except String (List (RowDiff K))) :
    (compare_table maxDiffs name att).status = "PASS"
      ↔ att = Except.ok ([] : List (RowDiff K)) := by
  cases att with
  | ok ds =>
      by_cases hd : ds = [] <;>
        simp [compare_table, List.length_eq_zero, hd]
  | error e => simp [compare_table]

theorem countFail_collectErrors_iff {K : Type} (ts : List (TableRun K)) :
    (countFail ts = 0 ∧ collectErrors ts = [])
      ↔ ∀ t ∈ ts, t.attempt = Except.ok ([] : List (RowDiff K)) := by
  induction ts with
  | nil => simp [countFail, collectErrors]
  | cons t ts ih =>
      cases ha : t.attempt with
      | ok ds =>
          by_cases hd : ds = [] <;>
            simp [countFail, collectErrors, List.length_eq_zero, ha, hd, ih]
      | error e => simp [countFail, collectErrors, ha]

theorem mem_collectErrors {K : Type} {ts : List (TableRun K)} {t : TableRun K}
    {e : String} (ht : t ∈ ts) (he : t.attempt = Except.error e) :
    errorMessage t.name e ∈ collectErrors ts := by
  induction ts with
  | nil => cases ht
  | cons t' ts ih =>
      rcases List.mem_cons.mp ht with h | h
      · subst h
        simp [collectErrors, he]
      · cases ha : t'.attempt <;> simp [collectErrors, ha, ih h]

theorem compare_table_table {K : Type} (maxDiffs : Nat) (name : String)
    (att : Except String (List (RowDiff K))) :
    (compare_table maxDiffs name att).table = name := by
  cases att <;> rfl

theorem get_exit_code_eq_zero {s : Summary} :
    get_exit_code s = 0 ↔ s.errors = [] ∧ s.failed_tables = 0 := by
  unfold get_exit_code
  split
  · rename_i h
    constructor
    · intro h0
      exact absurd h0 one_ne_zero
    · intro ⟨h1, h2⟩
      rcases h with h | h
      · exact absurd h1 h
      · omega
  · rename_i h
    push_neg at h
    simp [h.1]
    omega

/-! ### Claim theorems -/

/-- C2: For every table comparison, the resulting result's status is `"PASS"`
iff the comparison completed without error and `total_diffs = 0`; it is
`"ERROR"` iff an error occurred (the comparison could not complete); in every
other case (no error, non-zero diff count) it is `"FAIL"`. -/
theorem compare_table_status_invariant {K : Type} (maxDiffs : Nat)
    (name : String) (att : Except String (List (RowDiff K))) :
    ((compare_table maxDiffs name att).status = "PASS"
        ↔ (∃ ds, att = Except.ok ds)
            ∧ (compare_table maxDiffs name att).total_diffs = 0) ∧
    ((compare_table maxDiffs name att).status = "ERROR"
        ↔ ∃ e, att = Except.error e) ∧
    ((compare_table maxDiffs name att).status = "FAIL"
        ↔ (∃ ds, att = Except.ok ds)
            ∧ (compare_table maxDiffs name att).total_diffs ≠ 0) := by
  cases att with
  | ok ds => by_cases hd : ds.length = 0 <;> simp [compare_table, hd]
  | error e => simp [compare_table]

/-- C3: For a comparison that completes with `ds.length` total diffs and cap
`cap`, `total_diffs` is the exact count independent of the cap, the
materialized list is exactly the first `min cap ds.length` diffs (a `take`,
in emission/key order), a larger cap only extends the same prefix (changing
the cap truncates, never reorders or samples), and the configured default
cap is 1000. -/
theorem compare_table_cap_policy {K : Type} (cap cap' : Nat) (name : String)
    (ds : List (RowDiff K)) (hc : cap ≤ cap') :
    (compare_table cap name (Except.ok ds)).total_diffs = ds.length ∧
    (compare_table cap name (Except.ok ds)).diffs = ds.take cap ∧
    ((compare_table cap name (Except.ok ds)).diffs).length = min cap ds.length ∧
    (compare_table cap name (Except.ok ds)).diffs
      = ((compare_table cap' name (Except.ok ds)).diffs).take cap ∧
    effectiveMaxDiffs none = 1000 := by
  refine ⟨rfl, rfl, List.length_take .., ?_, rfl⟩
  simp [compare_table, List.take_take, Nat.min_eq_left hc]

/-- Witness for C3 at a concrete three-diff table with caps 2 ≤ 5. -/
theorem compare_table_cap_policy_witness :
    (2 : Nat) ≤ 5 ∧
    ((compare_table 2 "t"
        (Except.ok [RowDiff.Added (1 : Nat) ["a"], RowDiff.Added 2 ["b"],
          RowDiff.Added 3 ["c"]])).total_diffs
        = [RowDiff.Added (1 : Nat) ["a"], RowDiff.Added 2 ["b"],
            RowDiff.Added 3 ["c"]].length ∧
      (compare_table 2 "t"
        (Except.ok [RowDiff.Added (1 : Nat) ["a"], RowDiff.Added 2 ["b"],
          RowDiff.Added 3 ["c"]])).diffs
        = [RowDiff.Added (1 : Nat) ["a"], RowDiff.Added 2 ["b"],
            RowDiff.Added 3 ["c"]].take 2 ∧
      ((compare_table 2 "t"
        (Except.ok [RowDiff.Added (1 : Nat) ["a"], RowDiff.Added 2 ["b"],
          RowDiff.Added 3 ["c"]])).diffs).length
        = min 2 [RowDiff.Added (1 : Nat) ["a"], RowDiff.Added 2 ["b"],
            RowDiff.Added 3 ["c"]].length ∧
      (compare_table 2 "t"
        (Except.ok [RowDiff.Added (1 : Nat) ["a"], RowDiff.Added 2 ["b"],
          RowDiff.Added 3 ["c"]])).diffs
        = ((compare_table 5 "t"
            (Except.ok [RowDiff.Added (1 : Nat) ["a"], RowDiff.Added 2 ["b"],
              RowDiff.Added 3 ["c"]])).diffs).take 2 ∧
      effectiveMaxDiffs none = 1000) :=
  ⟨by decide,
   compare_table_cap_policy 2 5 "t"
     [RowDiff.Added (1 : Nat) ["a"], RowDiff.Added 2 ["b"],
       RowDiff.Added 3 ["c"]] (by decide)⟩

/-- C7: The run summary's sequence of results has exactly one entry per
configured table and preserves the input table order: the i-th result is the
result of comparing the i-th configured table (and carries its name).  The
source loop (src/compare.py lines 157-159) appends results in iteration
order, so array order equals input `tables` order. -/
theorem results_preserve_input_order {K : Type} (maxDiffs : Nat)
    (tables : List (TableRun K)) :
    (compare_all_tables maxDiffs tables initSummary).1.length = tables.length ∧
    ∀ i : Nat,
      (compare_all_tables maxDiffs tables initSummary).1[i]?
          = (tables[i]?).map (fun t => compare_table maxDiffs t.name t.attempt) ∧
      ((compare_all_tables maxDiffs tables initSummary).1[i]?).map
          TableResult.table
        = (tables[i]?).map TableRun.name := by
  simp only [compare_all_tables]
  rw [compare_tables_loop_fst]
  refine ⟨List.length_map .., fun i => ⟨List.getElem?_map .., ?_⟩⟩
  rw [List.getElem?_map]
  cases h : tables[i]? with
  | none => rfl
  | some t => simp [compare_table_table]

/-- C9: For an empty configured tables list the run completes with all
counters zero, the summary report's success-rate cell renders `"0%"` (no
division by zero), and the exit code is 0 (success). -/
theorem empty_run_safe {K : Type} (maxDiffs : Nat) :
    compare_all_tables (K := K) maxDiffs [] initSummary = ([], initSummary) ∧
    (compare_all_tables (K := K) maxDiffs [] initSummary).2.total_tables = 0 ∧
    (compare_all_tables (K := K) maxDiffs [] initSummary).2.passed_tables = 0 ∧
    (compare_all_tables (K := K) maxDiffs [] initSummary).2.failed_tables = 0 ∧
    success_rate_cell (compare_all_tables (K := K) maxDiffs [] initSummary).2
      = "0%" ∧
    get_exit_code (compare_all_tables (K := K) maxDiffs [] initSummary).2 = 0 :=
  ⟨rfl, rfl, rfl, rfl, rfl, rfl⟩

/-- C10: If exporting the results to the Snowflake validation table fails
after the comparisons, the export error is appended to the run-level error
list and the exit code becomes 1 (failure) — even when every table passed,
since the error list alone forces exit code 1 — while the per-table results
and the pass/fail counters are unchanged. -/
theorem export_failure_recorded {K : Type} (e : String)
    (st : ComparerState K) :
    (export_to_snowflake (Except.error e) st).summary.errors
        = st.summary.errors ++ ["Error exporting to Snowflake: " ++ e] ∧
    get_exit_code (export_to_snowflake (Except.error e) st).summary = 1 ∧
    (export_to_snowflake (Except.error e) st).results = st.results ∧
    (export_to_snowflake (Except.error e) st).summary.passed_tables
        = st.summary.passed_tables ∧
    (export_to_snowflake (Except.error e) st).summary.failed_tables
        = st.summary.failed_tables ∧
    (export_to_snowflake (Except.error e) st).summary.total_tables
        = st.summary.total_tables := by
  refine ⟨rfl, ?_, rfl, rfl, rfl, rfl⟩
  simp [export_to_snowflake, get_exit_code]

/-- C1: Any error raised while comparing a table is caught at the per-table
boundary (the `except Exception` handler of `compare_table`) and converted
into an `"ERROR"`-status result carrying the error description; the run still
produces one result for every configured table (in particular for every
remaining one), and the run summary's error list contains the table's error
message. -/
theorem compare_all_tables_isolates_errors {K : Type} (maxDiffs : Nat)
    (tables : List (TableRun K)) (i : Nat) (t : TableRun K) (e : String)
    (ht : tables[i]? = some t) (he : t.attempt = Except.error e) :
    (compare_all_tables maxDiffs tables initSummary).1.length = tables.length ∧
    (compare_all_tables maxDiffs tables initSummary).1[i]?
        = some (compare_table maxDiffs t.name (Except.error e)) ∧
    ((compare_all_tables maxDiffs tables initSummary).1[i]?).map
        TableResult.status = some "ERROR" ∧
    ((compare_all_tables maxDiffs tables initSummary).1[i]?).map
        TableResult.error = some (some e) ∧
    errorMessage t.name e
      ∈ (compare_all_tables maxDiffs tables initSummary).2.errors := by
  have hmem : t ∈ tables := List.getElem?_mem ht
  simp only [compare_all_tables]
  rw [compare_tables_loop_fst, compare_tables_loop_errors]
  rw [List.getElem?_map, ht]
  refine ⟨List.length_map .., ?_, ?_, ?_, ?_⟩
  · simp [he]
  · simp [he, compare_table]
  · simp [he, compare_table]
  · exact List.mem_append_right _ (mem_collectErrors hmem he)

/-- Witness for C1: a one-table run whose only attempt raises `"boom"`. -/
theorem compare_all_tables_isolates_errors_witness :
    (([⟨"t1", Except.error "boom"⟩] : List (TableRun Nat))[0]?
        = some ⟨"t1", Except.error "boom"⟩) ∧
    ((compare_all_tables 7 ([⟨"t1", Except.error "boom"⟩] : List (TableRun Nat))
        initSummary).1.length = 1 ∧
      (compare_all_tables 7 ([⟨"t1", Except.error "boom"⟩] : List (TableRun Nat))
          initSummary).1[0]?
        = some (compare_table 7 "t1" (Except.error "boom")) ∧
      ((compare_all_tables 7 ([⟨"t1", Except.error "boom"⟩] : List (TableRun Nat))
          initSummary).1[0]?).map TableResult.status = some "ERROR" ∧
      ((compare_all_tables 7 ([⟨"t1", Except.error "boom"⟩] : List (TableRun Nat))
          initSummary).1[0]?).map TableResult.error = some (some "boom") ∧
      errorMessage "t1" "boom"
        ∈ (compare_all_tables 7 ([⟨"t1", Except.error "boom"⟩] : List (TableRun Nat))
            initSummary).2.errors) :=
  ⟨rfl, compare_all_tables_isolates_errors 7 [⟨"t1", Except.error "boom"⟩]
    0 ⟨"t1", Except.error "boom"⟩ "boom" rfl rfl⟩

/-- C8: The run's outcome is success (exit code 0) iff every table's result
has status `"PASS"` and the run's error list is empty; any failed table or
recorded error makes the exit code non-zero. -/
theorem exit_code_success_iff {K : Type} (maxDiffs : Nat)
    (tables : List (TableRun K)) :
    get_exit_code (compare_all_tables maxDiffs tables initSummary).2 = 0
      ↔ (∀ res ∈ (compare_all_tables maxDiffs tables initSummary).1,
            res.status = "PASS") ∧
        (compare_all_tables maxDiffs tables initSummary).2.errors = [] := by
  simp only [compare_all_tables]
  rw [get_exit_code_eq_zero, compare_tables_loop_errors,
    compare_tables_loop_failed, compare_tables_loop_fst]
  simp only [initSummary, List.nil_append, Nat.zero_add]
  constructor
  · intro ⟨h1, h2⟩
    have hall := (countFail_collectErrors_iff tables).mp ⟨h2, h1⟩
    refine ⟨?_, h1⟩
    intro res hres
    obtain ⟨t, hmem, rfl⟩ := List.mem_map.mp hres
    exact (compare_table_status_pass_iff maxDiffs t.name t.attempt).mpr
      (hall t hmem)
  · intro ⟨h1, h2⟩
    have hall : ∀ t ∈ tables, t.attempt = Except.ok ([] : List (RowDiff K)) := by
      intro t hmem
      exact (compare_table_status_pass_iff maxDiffs t.name t.attempt).mp
        (h1 _ (List.mem_map_of_mem _ hmem))
    have := (countFail_collectErrors_iff tables).mpr hall
    exact ⟨this.2, this.1⟩

/-- C4 counterexample: on the spec's own example the differ does NOT emit
the claimed sequence Modified(2), Removed(4), Added(3) — that order is not
key order (4 before 3), contradicting the merge-join's key-order guarantee;
the actual second emission is Added(3). -/
theorem merge_example_claimed_order_false :
    mergeDiff ["col"] legacyRows newRows ≠
      Except.ok [RowDiff.Modified 2 [("col", "b", "c")],
        RowDiff.Removed 4 ["d"], RowDiff.Added 3 ["e"]] := by
  have h : mergeDiff ["col"] legacyRows newRows =
      Except.ok [RowDiff.Modified 2 [("col", "b", "c")],
        RowDiff.Added 3 ["e"], RowDiff.Removed 4 ["d"]] := by
    simp [mergeDiff, hdKeyEq, diffCols, legacyRows, newRows, Except.map]
  rw [h]
  intro hcontra
  simp at hcontra

/-- C4 (amended): for legacy = [(1,a),(2,b),(4,d)] and new = [(1,a),(2,c),
(3,e)] the diffs come in key order Modified(key=2, b→c), Added(key=3, e),
Removed(key=4, d), with total_diff_count = 3; and in general a key present
on both sides with differing compared columns yields a single Modified diff,
not a Removed/Added pair. -/
theorem merge_example_corrected {K : Type} [LinearOrder K] :
    (mergeDiff ["col"] legacyRows newRows =
      Except.ok [RowDiff.Modified 2 [("col", "b", "c")],
        RowDiff.Added 3 ["e"], RowDiff.Removed 4 ["d"]]) ∧
    (compare_table 1000 "t" (mergeDiff ["col"] legacyRows newRows)).total_diffs
        = 3 ∧
    (∀ (cols : List String) (l r : Row K), l.key = r.key →
        (diffCols cols l.fields r.fields).isEmpty = false →
        mergeDiff cols [l] [r]
          = Except.ok [RowDiff.Modified l.key
              (diffCols cols l.fields r.fields)]) := by
  have h : mergeDiff ["col"] legacyRows newRows =
      Except.ok [RowDiff.Modified 2 [("col", "b", "c")],
        RowDiff.Added 3 ["e"], RowDiff.Removed 4 ["d"]] := by
    simp [mergeDiff, hdKeyEq, diffCols, legacyRows, newRows, Except.map]
  refine ⟨h, by rw [h]; rfl, ?_⟩
  intro cols l r hk hcs
  simp only [mergeDiff, hk, lt_irrefl, if_neg (lt_irrefl r.key), hdKeyEq,
    Bool.false_eq_true, if_false, if_neg (Bool.false_ne_true), hcs,
    except_map_ok]

/-- Witness for C4's amended general clause at key 7 with one differing
column. -/
theorem merge_example_corrected_witness :
    ((⟨7, ["x"]⟩ : Row Nat).key = (⟨7, ["y"]⟩ : Row Nat).key) ∧
    ((diffCols ["c0"] (⟨(7 : Nat), ["x"]⟩ : Row Nat).fields
        (⟨(7 : Nat), ["y"]⟩ : Row Nat).fields).isEmpty = false) ∧
    mergeDiff ["c0"] [(⟨7, ["x"]⟩ : Row Nat)] [⟨7, ["y"]⟩]
      = Except.ok [RowDiff.Modified 7
          (diffCols ["c0"] (⟨(7 : Nat), ["x"]⟩ : Row Nat).fields
            (⟨(7 : Nat), ["y"]⟩ : Row Nat).fields)] :=
  ⟨rfl, rfl,
   (merge_example_corrected (K := Nat)).2.2 ["c0"] ⟨7, ["x"]⟩ ⟨7, ["y"]⟩
     rfl rfl⟩

/-- C5: A source yielding two consecutive rows with an equal key makes the
differ abort and the table's result status is `"ERROR"` — never `"PASS"`
and never `"FAIL"` — rather than the duplicate being silently resolved. -/
theorem duplicate_key_error_status {K : Type} [LinearOrder K]
    (cols : List String) (l r : List (Row K)) (maxDiffs : Nat) (name : String)
    (h : hasConsecDup l = true ∨ hasConsecDup r = true) :
    (compare_table maxDiffs name (mergeDiff cols l r)).status = "ERROR" ∧
    (compare_table maxDiffs name (mergeDiff cols l r)).status ≠ "PASS" ∧
    (compare_table maxDiffs name (mergeDiff cols l r)).status ≠ "FAIL" := by
  obtain ⟨e, he⟩ := mergeDiff_dup_error cols l r h
  rw [he]
  refine ⟨rfl, ?_, ?_⟩ <;> simp [compare_table]

/-- Witness for C5: the legacy side yields key 1 twice in a row. -/
theorem duplicate_key_error_status_witness :
    (hasConsecDup ([⟨1, ["a"]⟩, ⟨1, ["b"]⟩] : List (Row Nat)) = true ∨
      hasConsecDup ([] : List (Row Nat)) = true) ∧
    ((compare_table 9 "t"
        (mergeDiff ["col"] ([⟨1, ["a"]⟩, ⟨1, ["b"]⟩] : List (Row Nat)) [])).status
        = "ERROR" ∧
      (compare_table 9 "t"
        (mergeDiff ["col"] ([⟨1, ["a"]⟩, ⟨1, ["b"]⟩] : List (Row Nat)) [])).status
        ≠ "PASS" ∧
      (compare_table 9 "t"
        (mergeDiff ["col"] ([⟨1, ["a"]⟩, ⟨1, ["b"]⟩] : List (Row Nat)) [])).status
        ≠ "FAIL") :=
  ⟨Or.inl (by decide),
   duplicate_key_error_status ["col"] [⟨1, ["a"]⟩, ⟨1, ["b"]⟩] [] 9 "t"
     (Or.inl (by decide))⟩

/-- C6: Swapping the legacy and new sides maps the diff sequence through
`swapDiff` — every `Added` becomes `Removed` and vice versa with the same
key and snapshot, every `Modified` keeps its key with old/new values
swapped — and the total diff count is unchanged. -/
theorem merge_swap_symmetry {K : Type} [LinearOrder K] (cols : List String)
    (l r : List (Row K)) (ds : List (RowDiff K))
    (h : mergeDiff cols l r = Except.ok ds) :
    mergeDiff cols r l = Except.ok (ds.map swapDiff) ∧
    (ds.map swapDiff).length = ds.length :=
  ⟨mergeDiff_swap cols l r ds h, List.length_map ..⟩

/-- Witness for C6 on the spec's example pair of sources. -/
theorem merge_swap_symmetry_witness :
    (mergeDiff ["col"] legacyRows newRows =
      Except.ok [RowDiff.Modified 2 [("col", "b", "c")],
        RowDiff.Added 3 ["e"], RowDiff.Removed 4 ["d"]]) ∧
    (mergeDiff ["col"] newRows legacyRows =
      Except.ok ([RowDiff.Modified 2 [("col", "b", "c")],
        RowDiff.Added 3 ["e"],
        RowDiff.Removed 4 ["d"]].map swapDiff) ∧
     ([RowDiff.Modified (2 : Nat) [("col", "b", "c")],
        RowDiff.Added 3 ["e"],
        RowDiff.Removed 4 ["d"]].map swapDiff).length
       = [RowDiff.Modified (2 : Nat) [("col", "b", "c")],
           RowDiff.Added 3 ["e"], RowDiff.Removed 4 ["d"]].length) :=
  ⟨by simp [mergeDiff, hdKeyEq, diffCols, legacyRows, newRows, Except.map],
   merge_swap_symmetry ["col"] legacyRows newRows
     [RowDiff.Modified 2 [("col", "b", "c")], RowDiff.Added 3 ["e"],
       RowDiff.Removed 4 ["d"]]
     (by simp [mergeDiff, hdKeyEq, diffCols, legacyRows, newRows, Except.map])⟩
